import Mathlib

/-!
Verification development for the `temple` package of szampardi/xprint.

The Go sources are shallowly embedded:
  * the function-descriptor registry (`FnMap`, `BuildFuncMap`) from the
    registry file (`src/unnamed/part_000`);
  * the template assembler (`BuildTemplate`, `fload`, `pathBase`) from
    `src/unnamed/part_003`;
  * the usage tracker (`trackUsage`, `StartTracking`, `StopTracking`)
    from `src/temple/track.go`;
  * the render service request handler (`processParts`, `handleRender`,
    `respond`) from `src/temple/server.go`;
  * the helper functions `encrypt`, `decrypt`, `hexenc`, `hexdec`, `is`
    from `src/temple/funcs.go`.

External collaborators (the text/template parser and executor, the Go
standard library's AES-GCM, content-type sniffing, and the character and
number predicates of `strconv` and `unicode`) are black boxes to the
package and are modelled as explicit function parameters; everything the
package itself computes is embedded as executable Lean definitions.
Byte sequences are modelled as `List Nat` (each element a byte value) and
Go strings as Lean `String`, with `String.data` standing for the rune
sequence.
-/

namespace Xprint

/-! ## Function descriptor registry (src/unnamed/part_000)

Go: `fn` holds the callable (`_fn`, an opaque function value), a
description, a signature string derived by reflection from the callable,
and the `Unsafe` flag.  The callable and the reflected signature carry no
data relevant to the registry's behaviour, so the embedding keeps the
description and the flag. -/

structure FnInfo where
  description : String
  Unsafe : Bool
deriving DecidableEq, Repr

/-- The built-in registration list `FnMap` of src/unnamed/part_000, with
each function's `Unsafe` flag exactly as registered there. -/
def FnMap : List (String × FnInfo) := [
  ("add", ⟨"add value $2 to map or slice $1, map needs $3 for value's key in map", false⟩),
  ("b64dec", ⟨"base64 decode", false⟩),
  ("b64enc", ⟨"base64 encode", false⟩),
  ("cmd", ⟨"execute a command on local host", true⟩),
  ("decrypt", ⟨"decrypt data with AES_GCM: $1 ctxt, $2 base64 key, $3 AAD", false⟩),
  ("duration", ⟨"time.ParseDuration", false⟩),
  ("encrypt", ⟨"encrypt data with AES_GCM: $1 ptxt, $2 base64 key, $3 AAD", false⟩),
  ("env", ⟨"get environment vars, optionally use a placeholder value $2", true⟩),
  ("fns", ⟨"get list of available functions", false⟩),
  ("fromgob", ⟨"gob decode", false⟩),
  ("fromjson", ⟨"json decode", false⟩),
  ("fromyaml", ⟨"yaml decode", false⟩),
  ("gunzip", ⟨"extract GZIP compressed data", false⟩),
  ("gzip", ⟨"compress with GZIP", false⟩),
  ("hexdec", ⟨"hex decode", false⟩),
  ("hexenc", ⟨"hex encode", false⟩),
  ("http", ⟨"HEAD|GET|POST, url, body(raw), headers", true⟩),
  ("is", ⟨"check if $1 is all |upper(case), |lower(case), |int, |float, |float32, |bool or ==$2", false⟩),
  ("join", ⟨"strings.Join", false⟩),
  ("lower", ⟨"strings.ToLower", false⟩),
  ("math", ⟨"math operations (+, -, *, /, %, max, min)", false⟩),
  ("pathbase", ⟨"filepath.Base", false⟩),
  ("pathext", ⟨"filepath.Ext", false⟩),
  ("random", ⟨"generate a $1 sized []byte filled with bytes from crypto.Rand", false⟩),
  ("rawfile", ⟨"read raw bytes from a file", true⟩),
  ("split", ⟨"strings.Split", false⟩),
  ("string", ⟨"convert int/bool to string, retype []byte to string (handle with care)", false⟩),
  ("textfile", ⟨"read a file as a string", true⟩),
  ("timestamp", ⟨"$1 for timezone (default UTC)", false⟩),
  ("togob", ⟨"gob encode", false⟩),
  ("tojson", ⟨"json encode", false⟩),
  ("toyaml", ⟨"yaml encode", false⟩),
  ("trimprefix", ⟨"strings.TrimPrefix", false⟩),
  ("trimsuffix", ⟨"strings.TrimSuffix", false⟩),
  ("upper", ⟨"strings.ToUpper", false⟩),
  ("userinput", ⟨"get interactive user input (needs a terminal), if $2 bool is provided and true, term.ReadPassword is used. $1 is used as hint", true⟩),
  ("writefile", ⟨"store data to a file (append if it already exists)", true⟩)
]

/-- Go `BuildFuncMap(addUnsafeFuncs bool)`: the callable set handed to the
template engine, modelled by the names it maps (the callables themselves
are opaque).  An entry is included when `!info.Unsafe || addUnsafeFuncs`. -/
def BuildFuncMap (addUnsafeFuncs : Bool) : List String :=
  (FnMap.filter (fun e => !e.2.Unsafe || addUnsafeFuncs)).map (·.1)

/-! ## Template assembler (src/unnamed/part_003) -/

/-- Go `path.Base`: strip trailing slashes, then keep everything after the
last remaining slash; the empty path gives "." and an all-slash path "/". -/
def pathBase (p : String) : String :=
  if p.data = [] then "."
  else
    let q := (p.data.reverse.dropWhile (fun c => c = '/')).reverse
    if q = [] then "/"
    else String.mk (q.foldl (fun acc c => if c = '/' then [] else acc ++ [c]) [])

/-- Whether a line of text begins with the shebang marker "#!"
(Go: `strings.HasPrefix(t, "#!")`). -/
def shebangLine (t : List Char) : Bool :=
  match t with
  | '#' :: '!' :: _ => true
  | _ => false

/-- The scanner loop of Go `fload` in src/unnamed/part_003: for each line
`t`, skip it when `i == 0 && strings.HasPrefix(t, "#!")`, otherwise write
`t` followed by a newline.  The counter `i` is initialised to 0 and —
exactly as in the source — never incremented inside the loop. -/
def floadLoop (i : Nat) : List (List Char) → List Char
  | [] => []
  | t :: rest =>
    if i = 0 && shebangLine t then floadLoop i rest
    else t ++ '\n' :: floadLoop i rest

/-- Go `fload`, applied to the file's lines (as split by `bufio.Scanner`,
which strips the line terminators). -/
def fload (lines : List (List Char)) : List Char := floadLoop 0 lines

/-- Go map / text-template namespace write: `l[k] = v` replaces the value
under an existing key (redefining a template name replaces its tree) and
otherwise adds a new entry. -/
def upsert {α : Type} (l : List (String × α)) (k : String) (v : α) : List (String × α) :=
  if l.any (fun e => e.1 == k) then l.map (fun e => if e.1 == k then (k, v) else e)
  else l ++ [(k, v)]

/-- The state of `BuildTemplate`: `all` is the Go slice of registered
names, `registered` the template namespace (name to parsed body, in
registration order), and `handle` the name of the `*Template` value the
variable `tpl` currently points to — `tpl.New(n).Parse(...)` reassigns
`tpl` to the sub-template object named `n`, and `tpl.Execute` executes
exactly the template `handle` names. -/
structure BuildResult where
  all : List String
  registered : List (String × List Char)
  handle : String
deriving DecidableEq, Repr

/-- The failure modes of `BuildTemplate`, as distinct constructors:
`fmt.Errorf("no templates found")`, an `fload`/`os.Open` error, and a
`Parse` error of the external template engine. -/
inductive BuildErr
  | noTemplatesFound
  | loadError (msg : String)
  | parseError (tplName : String)
deriving DecidableEq, Repr

/-- The `for _, lft := range localFiles` loop of Go `BuildTemplate`: read
each file through `fload` (the filesystem is the black-box parameter
`fs`), parse it (the engine's parser is the black-box predicate
`parseOk`), register it under its basename and move the handle to it. -/
def parseLocalFiles (parseOk : List Char → Bool)
    (fs : String → Except String (List (List Char))) :
    List String → BuildResult → Except BuildErr BuildResult
  | [], st => .ok st
  | lft :: rest, st =>
    match fs lft with
    | .error e => .error (.loadError e)
    | .ok lines =>
      let text := fload lines
      let n := pathBase lft
      if parseOk text then
        parseLocalFiles parseOk fs rest ⟨st.all ++ [n], upsert st.registered n text, n⟩
      else .error (.parseError n)

/-- The `for fname, content := range loadedFiles` loop of Go
`BuildTemplate`.  Go iterates the map in an unspecified order; the
embedding takes the pairs as a list in one such order. -/
def parseLoadedFiles (parseOk : List Char → Bool) :
    List (String × String) → BuildResult → Except BuildErr BuildResult
  | [], st => .ok st
  | (fname, content) :: rest, st =>
    let n := pathBase fname
    if parseOk content.data then
      parseLoadedFiles parseOk rest ⟨st.all ++ [n], upsert st.registered n content.data, n⟩
    else .error (.parseError n)

/-- Go `BuildTemplate` of src/unnamed/part_003: parse the inline template
(if non-empty) under the full `name`, recording `path.Base(name)` first in
`all`; then the local files; then the loaded (named-fragment) map; fail
with "no templates found" when `len(all) < 1`.  The attached function map
is `BuildFuncMap enableUnsafeFunctions` (its contents are settled
separately and do not influence assembly). -/
def BuildTemplate (parseOk : List Char → Bool)
    (fs : String → Except String (List (List Char)))
    (enableUnsafeFunctions : Bool) (name template : String)
    (loadedFiles : List (String × String)) (localFiles : List String) :
    Except BuildErr BuildResult :=
  let _ := BuildFuncMap enableUnsafeFunctions
  let init : Except BuildErr BuildResult :=
    if template = "" then .ok ⟨[], [], name⟩
    else
      if parseOk template.data then
        .ok ⟨[pathBase name], upsert [] name template.data, name⟩
      else .error (.parseError name)
  match init with
  | .error e => .error e
  | .ok st1 =>
    match parseLocalFiles parseOk fs localFiles st1 with
    | .error e => .error e
    | .ok st2 =>
      match parseLoadedFiles parseOk loadedFiles st2 with
      | .error e => .error e
      | .ok st3 =>
        if st3.all.length < 1 then .error .noTemplatesFound
        else .ok st3

/-! ## Render service (src/temple/server.go, the `RenderServer` handler) -/

/-- One part of the multipart stream: its form field name, its upload
filename, and its content (the bytes `io.Copy` collects). -/
structure Part where
  formName : String
  fileName : String
  content : String
deriving DecidableEq, Repr

/-- Go `jreq`: the decoded render request.  `data` keeps the raw payload
(the code attempts a JSON decode of the `data` part and on failure keeps
the literal string; either way the payload is passed opaquely to the
engine, so the embedding keeps the raw text). -/
structure Jreq where
  template : String := ""
  templates : List (String × String) := []
  data : Option String := none
  outfile : String := ""
  forceDL : Bool := false
deriving DecidableEq, Repr

/-- The one HTTP response each request path writes. -/
inductive Resp
  | httpError (msg : String) (status : Nat)
  | jsonError (status : Nat) (errMsg : String)
  | inlineHTML (output : List Char)
  | attachment (filename ctype : String) (contentLength : Nat) (body : List Char)
deriving DecidableEq, Repr

/-- The HTTP status a `Resp` carries (`inlineHTML` and `attachment` are
written with `http.StatusOK`). -/
def Resp.status : Resp → Nat
  | .httpError _ s => s
  | .jsonError s _ => s
  | .inlineHTML _ => 200
  | .attachment _ _ _ _ => 200

/-- A status in the 4xx client-error class. -/
def Resp.is4xx (r : Resp) : Prop := 400 ≤ r.status ∧ r.status < 500

/-- Go `strconv.ParseBool`: accepts exactly 1, t, T, TRUE, true, True,
0, f, F, FALSE, false, False. -/
def parseBool (s : String) : Option Bool :=
  if s = "1" ∨ s = "t" ∨ s = "T" ∨ s = "TRUE" ∨ s = "true" ∨ s = "True" then some true
  else if s = "0" ∨ s = "f" ∨ s = "F" ∨ s = "FALSE" ∨ s = "false" ∨ s = "False" then some false
  else none

/-- The error text `strconv.ParseBool` returns for an unparseable input. -/
def parseBoolErrMsg (s : String) : String :=
  "strconv.ParseBool: parsing \"" ++ s ++ "\": invalid syntax"

/-- The `for { part, err := mr.NextPart() ... }` loop: fold the recognised
parts into the `jreq`.  A `templates` part with empty content is ignored;
a later part with the same filename overwrites the earlier one (Go map
write); a `forcedl` part whose text does not parse as a boolean stops the
request with `http.Error(..., http.StatusBadRequest)`. -/
def processParts : Jreq → List Part → Except Resp Jreq
  | j, [] => .ok j
  | j, p :: rest =>
    match p.formName with
    | "template" => processParts { j with template := p.content } rest
    | "data" => processParts { j with data := some p.content } rest
    | "templates" =>
      if p.content = "" then processParts j rest
      else processParts { j with templates := upsert j.templates p.fileName p.content } rest
    | "outfile" => processParts { j with outfile := p.content } rest
    | "forcedl" =>
      match parseBool p.content with
      | some b => processParts { j with forceDL := b } rest
      | none => .error (.httpError (parseBoolErrMsg p.content) 400)
    | _ => processParts j rest

/-- A POST body for `/render`: either a non-multipart body with the result
of decoding it as one JSON `jreq`, or a multipart stream — the parts
`NextPart` delivered before it ended, and `none` for a clean `io.EOF` or
`some e` for a stream error (a malformed stream, including a failing
`r.MultipartReader()`, with zero parts delivered). -/
inductive ReqBody
  | jsonBody (decoded : Except String Jreq)
  | multipartBody (parts : List Part) (streamErr : Option String)

/-- The error text written for a failed template build. -/
def buildErrMsg : BuildErr → String
  | .noTemplatesFound => "no templates found"
  | .loadError e => e
  | .parseError n => "template: " ++ n ++ ": parse error"

/-- The parsing phase of `RenderServer`: branch on multipart, decode JSON
or fold the parts; a JSON decode error answers 400 via the `jresp`
encoder, a part-level failure answers as `processParts` decided, and a
stream error after the delivered parts answers
`http.Error(..., http.StatusInternalServerError)`. -/
def parsePhase : ReqBody → Except Resp (Jreq × Bool)
  | .jsonBody (.error e) => .error (.jsonError 400 e)
  | .jsonBody (.ok j) => .ok (j, false)
  | .multipartBody parts streamErr =>
    match processParts {} parts with
    | .error r => .error r
    | .ok j =>
      match streamErr with
      | some e => .error (.httpError e 500)
      | none => .ok (j, true)

/-- The 512-byte buffer `ctypeBuf` starts with 512 zero bytes
(`bytes.NewBuffer(make([]byte, 512))`) and the rendered output is written
after them; `http.DetectContentType` sniffs this buffer. -/
def sniffBuf (rendered : List Char) : List Char :=
  List.replicate 512 '\x00' ++ rendered

/-- The responding phase (src/temple/server.go lines 771-800): default the
output filename to "rendered.out"; when the rendered length is under
`1 << 20` and force-download was not requested and the request was
multipart, answer the inline HTML page embedding the output, else answer
an attachment with sniffed content type, the filename, and a
Content-Length equal to the rendered length.  `detectCT` abstracts
`http.DetectContentType`. -/
def respond (detectCT : List Char → String) (multipart : Bool) (j : Jreq)
    (rendered : List Char) : Resp :=
  let outfile := if j.outfile = "" then "rendered.out" else j.outfile
  if rendered.length < (1 <<< 20) && !j.forceDL && multipart then
    .inlineHTML rendered
  else
    .attachment outfile (detectCT (sniffBuf rendered)) rendered.length rendered

/-- The whole `RenderServer` POST path: parse, build the template from the
inline body and the named fragments (`RenderServer` passes no local
files), execute the built handle (`tpl.Execute`), and respond.  A build
failure answers 400, an execution failure 500.  `engine` abstracts
`text/template` execution: it receives the registered templates and the
name of the template the returned `*Template` value points to. -/
def handleRender (parseOk : List Char → Bool)
    (engine : List (String × List Char) → String → Except String (List Char))
    (detectCT : List Char → String) (enableUnsafeFunctions : Bool)
    (body : ReqBody) : Resp :=
  match parsePhase body with
  | .error r => r
  | .ok (j, multipart) =>
    match BuildTemplate parseOk (fun _ => .error "no filesystem") enableUnsafeFunctions
        "post" j.template j.templates [] with
    | .error e => .jsonError 400 (buildErrMsg e)
    | .ok br =>
      match engine br.registered br.handle with
      | .error e => .jsonError 500 e
      | .ok rendered => respond detectCT multipart j rendered

/-- A concrete instance of the execution black box, valid for templates
whose bodies contain no template actions: executing a handle emits that
template's body verbatim, and a handle with no parsed tree is the
engine's "incomplete or empty template" error. -/
def lookupEngine : List (String × List Char) → String → Except String (List Char) :=
  fun regs n =>
    match regs.find? (fun e => e.1 == n) with
    | some e => .ok e.2
    | none => .error ("template: \"" ++ n ++ "\" is an incomplete or empty template")

/-! ## AES-GCM helpers (src/temple/funcs.go, `encrypt` / `decrypt`)

The cryptographic primitive itself is a black box to the package (non-goal
of the spec): `cipher.NewGCM(aes.NewCipher(key))` is modelled by a
`GCMCipher` value produced from the key bytes by the parameter `mkGCM`,
with the AEAD's defining seal/open inverse property carried as a field.
`aes.NewCipher` rejects any key whose length is not 16, 24 or 32 bytes,
and `cipher.NewGCM`'s nonce size is 12 bytes.  Base64 decoding of the key
string is shared by `encrypt` and `decrypt`, so both sides of the
round-trip see the same key bytes, modelled by passing the same `key`. -/

/-- The nonce size of `cipher.NewGCM` (gcmStandardNonceSize). -/
def gcmNonceSize : Nat := 12

/-- An AES-GCM AEAD instance for one key: `sealGCM nonce ptxt aad` and
`openGCM nonce ctxt aad`, with the black-box guarantee that opening what
was sealed under the same nonce and associated data returns the
plaintext. -/
structure GCMCipher where
  sealGCM : List Nat → List Nat → List Nat → List Nat
  openGCM : List Nat → List Nat → List Nat → Option (List Nat)
  seal_open : ∀ nonce ptxt aad, openGCM nonce (sealGCM nonce ptxt aad) aad = some ptxt

/-- The key lengths `aes.NewCipher` accepts. -/
def aesKeySizeOK (key : List Nat) : Bool :=
  key.length == 16 || key.length == 24 || key.length == 32

/-- The error outcomes of `encrypt` / `decrypt` relevant to the model. -/
inductive CryptoErr
  | invalidKeySize (n : Nat)
  | unexpectedEOF
  | messageAuthFailed
deriving DecidableEq, Repr

/-- Go `encrypt` (funcs.go lines 433-467): build the AEAD from the key,
draw a fresh random nonce `iv` of the cipher's nonce size (randomness is
modelled by taking `iv` as a parameter), seal, and return
`append(ctxt, iv...)` — the nonce is appended after the ciphertext. -/
def encrypt (mkGCM : List Nat → GCMCipher) (key ptxt aad iv : List Nat) :
    Except CryptoErr (List Nat) :=
  if aesKeySizeOK key then
    .ok ((mkGCM key).sealGCM iv ptxt aad ++ iv)
  else .error (.invalidKeySize key.length)

/-- Go `decrypt` (funcs.go lines 469-508): build the AEAD from the key;
with `ns := aead.NonceSize()` and `l := len(ctxt)`, fail with
`io.ErrUnexpectedEOF` when `l < ns`, else open with nonce `ctxt[l-ns:]`
and ciphertext `ctxt[:l-ns]`. -/
def decrypt (mkGCM : List Nat → GCMCipher) (key input aad : List Nat) :
    Except CryptoErr (List Nat) :=
  if aesKeySizeOK key then
    let aead := mkGCM key
    let ns := gcmNonceSize
    let l := input.length
    if l < ns then .error .unexpectedEOF
    else
      match aead.openGCM (input.drop (l - ns)) (input.take (l - ns)) aad with
      | some p => .ok p
      | none => .error .messageAuthFailed
  else .error (.invalidKeySize key.length)

/-! ## Hex helpers (src/temple/funcs.go, `hexenc` / `hexdec`) -/

/-- A template argument of the two shapes the claims compare: a Go string
or a byte slice (the `io.Reader` shape is orthogonal to the claims). -/
inductive GoVal
  | str (s : String)
  | bytes (b : List Nat)
deriving DecidableEq, Repr

/-- The digit table of encoding/hex ("0123456789abcdef"): the lowercase
hex digit for a value below 16, by indexing the table's runes. -/
def hexDigitChar (n : Nat) : Char :=
  ("0123456789abcdef".data).getD n '0'

/-- encoding/hex's fromHexChar: the value of a hex digit character, with
both letter cases accepted, computed from the character's code point. -/
def fromHexDigit (c : Char) : Option Nat :=
  if '0' ≤ c ∧ c ≤ '9' then some (c.toNat - '0'.toNat)
  else if 'a' ≤ c ∧ c ≤ 'f' then some (c.toNat - 'a'.toNat + 10)
  else if 'A' ≤ c ∧ c ≤ 'F' then some (c.toNat - 'A'.toNat + 10)
  else none

/-- `hex.EncodeToString` over byte values: two digits per byte. -/
def hexencBytes : List Nat → List Char
  | [] => []
  | b :: rest => hexDigitChar (b / 16) :: hexDigitChar (b % 16) :: hexencBytes rest

/-- The core of `hex.DecodeString` / `hex.Decode` over a sequence of
digits (`dig` reads one digit; for `DecodeString` the digits are
characters, for `Decode` they are the bytes of the hex text). -/
def hexDecodeCore {α : Type} (dig : α → Option Nat) : List α → Except String (List Nat)
  | [] => .ok []
  | [_] => .error "encoding/hex: odd length hex string"
  | c1 :: c2 :: rest =>
    match dig c1, dig c2 with
    | some hi, some lo =>
      match hexDecodeCore dig rest with
      | .ok bs => .ok ((hi * 16 + lo) :: bs)
      | .error e => .error e
    | _, _ => .error "encoding/hex: invalid byte"

/-- `hex.DecodeString` on a Go string. -/
def hexDecodeString (t : String) : Except String (List Nat) :=
  hexDecodeCore fromHexDigit t.data

/-- `hex.Decode` on a byte slice holding hex text. -/
def hexDecodeBytes (t : List Nat) : Except String (List Nat) :=
  hexDecodeCore (fun b => fromHexDigit (Char.ofNat b)) t

/-- Go `hexenc` (funcs.go lines 243-262) on the two shapes: a string's
bytes are its runes' values (the inputs of interest are ASCII). -/
def hexenc : GoVal → String
  | .str s => String.mk (hexencBytes (s.data.map Char.toNat))
  | .bytes b => String.mk (hexencBytes b)

/-- Go `hexdec` (funcs.go lines 264-294).  In the string branch the source
assigns `b, err = hex.DecodeString(t)` and then returns `out = b[:n]`
where the count `n` was declared as `var n int` and never written in this
branch — so the slice is `b[:0]`.  In the byte-slice branch
`n, err = hex.Decode(b, t)` does set `n` to the decoded byte count and
`b[:n]` is the decoded data. -/
def hexdec : GoVal → Except String (List Nat)
  | .str t =>
    match hexDecodeString t with
    | .error e => .error e
    | .ok b =>
      let n : Nat := 0
      .ok (b.take n)
  | .bytes t =>
    match hexDecodeBytes t with
    | .error e => .error e
    | .ok b => .ok b

/-! ## The `is` predicate (src/temple/funcs.go lines 510-548) -/

/-- The character classifiers and number parsers `is` delegates to
(`unicode.IsLetter`, `unicode.IsUpper`, `unicode.IsLower`,
`strconv.Atoi`, `strconv.ParseFloat(s, 64)`, `strconv.ParseFloat(s, 32)`
— success of the parsers is all `is` observes), black boxes of the Go
standard library. -/
structure StrPredFns where
  isLetter : Char → Bool
  isUpper : Char → Bool
  isLower : Char → Bool
  atoiOK : String → Bool
  parseF64OK : String → Bool
  parseF32OK : String → Bool

/-- The `switch x := strings.TrimPrefix(what, "|"); x` dispatch of `is`:
`x` is the predicate with the leading "|" removed, `what` the full
predicate string the default case compares against. -/
def isPipe (ext : StrPredFns) (s : String) (x : String) (what : String) : Bool :=
  if x = "u" ∨ x = "upper" then !(s.data.any (fun r => ext.isLetter r && ext.isLower r))
  else if x = "l" ∨ x = "lower" then !(s.data.any (fun r => ext.isLetter r && ext.isUpper r))
  else if x = "i" ∨ x = "int" then ext.atoiOK s
  else if x = "f" ∨ x = "float" then ext.parseF64OK s
  else if x = "f32" ∨ x = "float32" then ext.parseF32OK s
  else if x = "b" ∨ x = "bool" then s == "true" || s == "false"
  else s == what

/-- Go `strings.HasPrefix(what, "|")` on the rune sequence. -/
def strHasPrefixPipe (w : List Char) : Bool :=
  match w with
  | '|' :: _ => true
  | _ => false

/-- Go `strings.TrimPrefix(what, "|")` on the rune sequence. -/
def strTrimPipe (w : List Char) : List Char :=
  match w with
  | '|' :: r => r
  | w => w

/-- Go `is`: when the predicate starts with "|", dispatch on the trimmed
rest; otherwise compare literally. -/
def is (ext : StrPredFns) (s what : String) : Bool :=
  if strHasPrefixPipe what.data then isPipe ext s (String.mk (strTrimPipe what.data)) what
  else s == what

/-- The recognised pipe-predicate names of `is`'s switch. -/
def recognizedPred : List String :=
  ["u", "upper", "l", "lower", "i", "int", "f", "float", "f32", "float32", "b", "bool"]

/-! ## Usage tracker (src/temple/track.go) -/

/-- Go `fnTrack`: one audit record.  The timestamp is a number, the
opaque argument/output values are strings (the consumer only marshals
them). -/
structure FnTrack where
  T : Nat
  F : String
  Args : List String
  Output : String
  Err : Option String
deriving DecidableEq, Repr

/-- The tracker's process-wide state: the `debugAllFunctions` flag, the
`Tracking` WaitGroup counter, and the records handed to `fnTrackChan` in
order. -/
structure TrackerState where
  debugAllFunctions : Bool
  pending : Nat
  queue : List FnTrack
deriving DecidableEq, Repr

/-- Go `trackUsage` (track.go lines 95-106): when
`debugAllFunctions || alwaysTrack`, add 1 to the WaitGroup and send the
record on the channel (the send completes before the helper returns);
otherwise do nothing. -/
def trackUsage (now : Nat) (fnName : String) (alwaysTrack : Bool)
    (output : String) (err : Option String) (args : List String)
    (st : TrackerState) : TrackerState :=
  if st.debugAllFunctions || alwaysTrack then
    { st with
      pending := st.pending + 1
      queue := st.queue ++ [⟨now, fnName, args, output, err⟩] }
  else st

/-- Go `StartTracking`: sets the process-wide flag (the singleton consumer
start is a no-op on the enqueue-side state modelled here). -/
def StartTracking (st : TrackerState) : TrackerState :=
  { st with debugAllFunctions := true }

/-- Go `StopTracking`: clears the process-wide flag only. -/
def StopTracking (st : TrackerState) : TrackerState :=
  { st with debugAllFunctions := false }

/-! ## Concrete black-box instances used by witnesses -/

/-- A trivial AEAD instance: sealing is the identity on the plaintext. -/
def mkTriv : List Nat → GCMCipher :=
  fun _ =>
    { sealGCM := fun _ ptxt _ => ptxt
      openGCM := fun _ ctxt _ => some ctxt
      seal_open := fun _ _ _ => rfl }

/-- A 16-byte (AES-128) key of zeros. -/
def trivKey : List Nat := List.replicate 16 0

/-- Character classifiers and parsers that reject everything. -/
def extTriv : StrPredFns :=
  ⟨fun _ => false, fun _ => false, fun _ => false,
   fun _ => false, fun _ => false, fun _ => false⟩

/-- A parser black box that accepts every template body. -/
def parseAll : List Char → Bool := fun _ => true

/-- A filesystem black box with no files. -/
def fsEmpty : String → Except String (List (List Char)) :=
  fun p => .error ("open " ++ p ++ ": no such file or directory")

/-- A content-type black box. -/
def ctOctet : List Char → String := fun _ => "application/octet-stream"

end Xprint

namespace Xprint

/-- C1: for every built-in registration, the callable set built with
`includeUnsafe = false` contains a name exactly when that registration's
`Unsafe` flag is false (so `cmd`, `env`, `http`, `rawfile`, `textfile`,
`userinput`, `writefile` are absent from the set itself), and the set
built with `includeUnsafe = true` contains every registered name. -/
theorem C1_capability_boundary :
    (FnMap.all (fun e => (BuildFuncMap false).contains e.1 == !e.2.Unsafe)) = true
    ∧ (FnMap.all (fun e => (BuildFuncMap true).contains e.1)) = true
    ∧ (["cmd", "env", "http", "rawfile", "textfile", "userinput", "writefile"].all
        (fun n => !(BuildFuncMap false).contains n)) = true := by
  refine ⟨?_, ?_, ?_⟩ <;> decide

end Xprint

namespace Xprint

/-! ## Assembler lemmas -/

/-- The local-files loop never produces the "no templates found" error. -/
theorem parseLocalFiles_error_ne (parseOk : List Char → Bool)
    (fs : String → Except String (List (List Char))) :
    ∀ (ls : List String) (st : BuildResult) (e : BuildErr),
      parseLocalFiles parseOk fs ls st = .error e → e ≠ .noTemplatesFound := by
  intro ls
  induction ls with
  | nil => intro st e h; simp [parseLocalFiles] at h
  | cons lft rest ih =>
    intro st e h
    rw [parseLocalFiles] at h
    split at h
    · cases h; simp
    · dsimp only at h
      split at h
      · exact ih _ _ h
      · cases h; simp

/-- The loaded-files loop never produces the "no templates found" error. -/
theorem parseLoadedFiles_error_ne (parseOk : List Char → Bool) :
    ∀ (fl : List (String × String)) (st : BuildResult) (e : BuildErr),
      parseLoadedFiles parseOk fl st = .error e → e ≠ .noTemplatesFound := by
  intro fl
  induction fl with
  | nil => intro st e h; simp [parseLoadedFiles] at h
  | cons p rest ih =>
    obtain ⟨fname, content⟩ := p
    intro st e h
    rw [parseLoadedFiles] at h
    try dsimp only at h
    split at h
    · exact ih _ _ h
    · cases h; simp

/-- Each successfully processed local file appends exactly one name. -/
theorem parseLocalFiles_ok_length (parseOk : List Char → Bool)
    (fs : String → Except String (List (List Char))) :
    ∀ (ls : List String) (st st' : BuildResult),
      parseLocalFiles parseOk fs ls st = .ok st' →
      st'.all.length = st.all.length + ls.length := by
  intro ls
  induction ls with
  | nil =>
    intro st st' h
    simp [parseLocalFiles] at h
    simp [← h]
  | cons lft rest ih =>
    intro st st' h
    rw [parseLocalFiles] at h
    split at h
    · cases h
    · dsimp only at h
      split at h
      · have := ih _ _ h
        simp only [List.length_append, List.length_cons, List.length_nil] at this ⊢
        omega
      · cases h

/-- Each successfully processed fragment appends exactly one name. -/
theorem parseLoadedFiles_ok_length (parseOk : List Char → Bool) :
    ∀ (fl : List (String × String)) (st st' : BuildResult),
      parseLoadedFiles parseOk fl st = .ok st' →
      st'.all.length = st.all.length + fl.length := by
  intro fl
  induction fl with
  | nil =>
    intro st st' h
    simp [parseLoadedFiles] at h
    simp [← h]
  | cons p rest ih =>
    obtain ⟨fname, content⟩ := p
    intro st st' h
    rw [parseLoadedFiles] at h
    try dsimp only at h
    split at h
    · have := ih _ _ h
      simp only [List.length_append, List.length_cons, List.length_nil] at this ⊢
      omega
    · cases h

/-- When every local file reads and parses, the loop succeeds. -/
theorem parseLocalFiles_total (parseOk : List Char → Bool)
    (fs : String → Except String (List (List Char))) :
    ∀ (ls : List String) (st : BuildResult),
      (∀ f ∈ ls, ∃ lines, fs f = .ok lines ∧ parseOk (fload lines) = true) →
      ∃ st', parseLocalFiles parseOk fs ls st = .ok st' := by
  intro ls
  induction ls with
  | nil => intro st _; exact ⟨st, rfl⟩
  | cons lft rest ih =>
    intro st hall
    obtain ⟨lines, hfs, hp⟩ := hall lft (List.mem_cons_self _ _)
    obtain ⟨st', hst'⟩ :=
      ih ⟨st.all ++ [pathBase lft], upsert st.registered (pathBase lft) (fload lines),
        pathBase lft⟩ (fun f hf => hall f (List.mem_cons_of_mem _ hf))
    refine ⟨st', ?_⟩
    rw [parseLocalFiles, hfs]
    dsimp only
    rw [if_pos hp]
    exact hst'

/-- When every fragment parses, the loop succeeds. -/
theorem parseLoadedFiles_total (parseOk : List Char → Bool) :
    ∀ (fl : List (String × String)) (st : BuildResult),
      (∀ e ∈ fl, parseOk e.2.data = true) →
      ∃ st', parseLoadedFiles parseOk fl st = .ok st' := by
  intro fl
  induction fl with
  | nil => intro st _; exact ⟨st, rfl⟩
  | cons p rest ih =>
    obtain ⟨fname, content⟩ := p
    intro st hall
    have hp : parseOk content.data = true := hall ⟨fname, content⟩ (List.mem_cons_self _ _)
    obtain ⟨st', hst'⟩ :=
      ih ⟨st.all ++ [pathBase fname], upsert st.registered (pathBase fname) content.data,
        pathBase fname⟩ (fun e he => hall e (List.mem_cons_of_mem _ he))
    refine ⟨st', ?_⟩
    rw [parseLoadedFiles]
    try dsimp only
    rw [if_pos hp]
    exact hst'

/-- When at least one source is supplied, `BuildTemplate` cannot answer
"no templates found": any failure is a load or parse error. -/
theorem BuildTemplate_ne_noTemplates (parseOk : List Char → Bool)
    (fs : String → Except String (List (List Char))) (u : Bool) (name template : String)
    (loadedFiles : List (String × String)) (localFiles : List String)
    (hsrc : template ≠ "" ∨ localFiles ≠ [] ∨ loadedFiles ≠ []) :
    BuildTemplate parseOk fs u name template loadedFiles localFiles
      ≠ .error .noTemplatesFound := by
  rw [BuildTemplate]
  by_cases ht : template = ""
  · rw [if_pos ht]
    dsimp only
    cases h2 : parseLocalFiles parseOk fs localFiles ⟨[], [], name⟩ with
    | error e =>
      have := parseLocalFiles_error_ne parseOk fs _ _ _ h2
      simp [this]
    | ok st2 =>
      dsimp only
      cases h3 : parseLoadedFiles parseOk loadedFiles st2 with
      | error e =>
        have := parseLoadedFiles_error_ne parseOk _ _ _ h3
        simp [this]
      | ok st3 =>
        dsimp only
        have hl2 := parseLocalFiles_ok_length parseOk fs _ _ _ h2
        have hl3 := parseLoadedFiles_ok_length parseOk _ _ _ h3
        simp only [List.length_nil] at hl2
        have hpos : 0 < st3.all.length := by
          rcases hsrc with hsrc | hsrc | hsrc
          · exact absurd ht hsrc
          · have := List.length_pos.mpr hsrc
            omega
          · have := List.length_pos.mpr hsrc
            omega
        rw [if_neg (by omega)]
        simp
  · rw [if_neg ht]
    by_cases hp : parseOk template.data = true
    · rw [if_pos hp]
      dsimp only
      cases h2 : parseLocalFiles parseOk fs localFiles
          ⟨[pathBase name], upsert [] name template.data, name⟩ with
      | error e =>
        have := parseLocalFiles_error_ne parseOk fs _ _ _ h2
        simp [this]
      | ok st2 =>
        dsimp only
        cases h3 : parseLoadedFiles parseOk loadedFiles st2 with
        | error e =>
          have := parseLoadedFiles_error_ne parseOk _ _ _ h3
          simp [this]
        | ok st3 =>
          dsimp only
          have hl2 := parseLocalFiles_ok_length parseOk fs _ _ _ h2
          have hl3 := parseLoadedFiles_ok_length parseOk _ _ _ h3
          simp only [List.length_cons, List.length_nil] at hl2
          rw [if_neg (by omega)]
          simp
    · rw [if_neg hp]
      simp

/-- C8: `BuildTemplate` fails with the "no templates found" error exactly
when zero templates were registered — empty inline body, no local file
paths and no named fragments; whenever at least one source is supplied
(and the supplied sources read and parse), it succeeds and returns a
non-empty ordered name list. -/
theorem C8_no_templates_found (parseOk : List Char → Bool)
    (fs : String → Except String (List (List Char))) (u : Bool) (name template : String)
    (loadedFiles : List (String × String)) (localFiles : List String)
    (hinline : template ≠ "" → parseOk template.data = true)
    (hlocal : ∀ f ∈ localFiles, ∃ lines, fs f = .ok lines ∧ parseOk (fload lines) = true)
    (hfrag : ∀ e ∈ loadedFiles, parseOk e.2.data = true) :
    (BuildTemplate parseOk fs u name template loadedFiles localFiles
        = .error .noTemplatesFound
      ↔ template = "" ∧ localFiles = [] ∧ loadedFiles = [])
    ∧ ((template ≠ "" ∨ localFiles ≠ [] ∨ loadedFiles ≠ []) →
        ∃ r, BuildTemplate parseOk fs u name template loadedFiles localFiles = .ok r
          ∧ r.all ≠ []) := by
  constructor
  · constructor
    · intro h
      by_cases ht : template = ""
      · by_cases hl : localFiles = []
        · by_cases hf : loadedFiles = []
          · exact ⟨ht, hl, hf⟩
          · exact absurd h (BuildTemplate_ne_noTemplates parseOk fs u name template
              loadedFiles localFiles (Or.inr (Or.inr hf)))
        · exact absurd h (BuildTemplate_ne_noTemplates parseOk fs u name template
            loadedFiles localFiles (Or.inr (Or.inl hl)))
      · exact absurd h (BuildTemplate_ne_noTemplates parseOk fs u name template
          loadedFiles localFiles (Or.inl ht))
    · rintro ⟨ht, hl, hf⟩
      subst ht; subst hl; subst hf
      rfl
  · intro hsrc
    by_cases ht : template = ""
    · obtain ⟨st2, h2⟩ := parseLocalFiles_total parseOk fs localFiles ⟨[], [], name⟩ hlocal
      obtain ⟨st3, h3⟩ := parseLoadedFiles_total parseOk loadedFiles st2 hfrag
      have hl2 := parseLocalFiles_ok_length parseOk fs _ _ _ h2
      have hl3 := parseLoadedFiles_ok_length parseOk _ _ _ h3
      simp only [List.length_nil] at hl2
      have hpos : 0 < st3.all.length := by
        rcases hsrc with hsrc | hsrc | hsrc
        · exact absurd ht hsrc
        · have := List.length_pos.mpr hsrc
          omega
        · have := List.length_pos.mpr hsrc
          omega
      refine ⟨st3, ?_, List.length_pos.mp hpos⟩
      rw [BuildTemplate, if_pos ht]
      dsimp only
      rw [h2]
      dsimp only
      rw [h3]
      dsimp only
      rw [if_neg (by omega)]
    · have hp := hinline ht
      obtain ⟨st2, h2⟩ := parseLocalFiles_total parseOk fs localFiles
        ⟨[pathBase name], upsert [] name template.data, name⟩ hlocal
      obtain ⟨st3, h3⟩ := parseLoadedFiles_total parseOk loadedFiles st2 hfrag
      have hl2 := parseLocalFiles_ok_length parseOk fs _ _ _ h2
      have hl3 := parseLoadedFiles_ok_length parseOk _ _ _ h3
      simp only [List.length_cons, List.length_nil] at hl2
      have hpos : 0 < st3.all.length := by omega
      refine ⟨st3, ?_, List.length_pos.mp hpos⟩
      rw [BuildTemplate, if_neg ht, if_pos hp]
      dsimp only
      rw [h2]
      dsimp only
      rw [h3]
      dsimp only
      rw [if_neg (by omega)]

/-- C8 witness: with one inline source supplied the build succeeds with a
non-empty name list, and with zero sources it fails with exactly the
"no templates found" error. -/
theorem C8_no_templates_found_witness :
    (∃ r, BuildTemplate parseAll fsEmpty false "post" "hello" [] [] = .ok r ∧ r.all ≠ [])
    ∧ BuildTemplate parseAll fsEmpty false "post" "" [] [] = .error .noTemplatesFound := by
  constructor
  · exact (C8_no_templates_found parseAll fsEmpty false "post" "hello" [] []
      (fun _ => rfl) (fun f hf => absurd hf (List.not_mem_nil f))
      (fun e he => absurd he (List.not_mem_nil e))).2 (Or.inl (by decide))
  · exact (C8_no_templates_found parseAll fsEmpty false "post" "" [] []
      (fun h => absurd rfl h) (fun f hf => absurd hf (List.not_mem_nil f))
      (fun e he => absurd he (List.not_mem_nil e))).1.mpr ⟨rfl, rfl, rfl⟩

/-- C2 (code bug): for an assembly with inline body "INLINE" and one named
fragment "frag" (the render server's call shape), the inline entry's
basename "post" is indeed the first element of the returned name list,
but the `*Template` value `BuildTemplate` returns is the handle of the
last-parsed fragment "frag" — so the render path's `tpl.Execute`
(server.go line 762) executes the fragment, and the full request pipeline
answers with the fragment's output "FRAG" instead of the inline entry's
"INLINE". -/
theorem C2_render_path_executes_last_fragment :
    (BuildTemplate parseAll fsEmpty false "post" "INLINE" [("frag", "FRAG")] []).map
        (fun r => r.all) = .ok ["post", "frag"]
    ∧ (BuildTemplate parseAll fsEmpty false "post" "INLINE" [("frag", "FRAG")] []).map
        (fun r => r.handle) = .ok "frag"
    ∧ handleRender parseAll lookupEngine ctOctet false
        (.multipartBody [⟨"template", "", "INLINE"⟩, ⟨"templates", "frag", "FRAG"⟩] none)
      = .inlineHTML "FRAG".data
    ∧ ("frag" : String) ≠ "post" :=
  ⟨rfl, rfl, by decide, by decide⟩

/-- C5 (code bug): `fload` drops every line that begins with "#!", not only
a leading shebang line: on the file whose lines are "a", "#!b", "c" — a
file whose first line is not a shebang — the interior line "#!b" is
stripped, because the line counter `i` is never incremented, so the
`i == 0` guard holds on every iteration. -/
theorem C5_fload_strips_every_shebang_line :
    fload [['a'], ['#', '!', 'b'], ['c']] = ['a', '\n', 'c', '\n']
    ∧ shebangLine ['a'] = false :=
  ⟨by decide, by decide⟩

/-- C3 counterexample: a malformed multipart stream (`mr.NextPart`
returning a non-EOF error, here before delivering any part) is answered
with `http.Error(..., http.StatusInternalServerError)` — status 500, not
a 4xx client-error status as the claim requires for malformed input. -/
theorem C3_counterexample_multipart_stream_error_is_500 :
    (handleRender parseAll lookupEngine ctOctet false
        (.multipartBody [] (some "multipart: NextPart: unexpected EOF"))).status = 500
    ∧ ¬ (handleRender parseAll lookupEngine ctOctet false
        (.multipartBody [] (some "multipart: NextPart: unexpected EOF"))).is4xx := by
  refine ⟨rfl, ?_⟩
  intro h
  simp only [Resp.is4xx] at h
  have hs : (handleRender parseAll lookupEngine ctOctet false
      (.multipartBody [] (some "multipart: NextPart: unexpected EOF"))).status = 500 := rfl
  rw [hs] at h
  omega

/-- C3 (amended): a malformed non-multipart JSON body and an unparseable
`forcedl` part are answered with status 400, but a malformed multipart
stream is answered with status 500 — the 5xx class is not reserved to
template-execution and I/O failures. -/
theorem C3_amended_input_error_statuses (parseOk : List Char → Bool)
    (engine : List (String × List Char) → String → Except String (List Char))
    (detectCT : List Char → String) (u : Bool) :
    (∀ e, handleRender parseOk engine detectCT u (.jsonBody (.error e)) = .jsonError 400 e)
    ∧ (∀ parts err j, processParts {} parts = .ok j →
        handleRender parseOk engine detectCT u (.multipartBody parts (some err))
          = .httpError err 500)
    ∧ (∀ j p rest, p.formName = "forcedl" → parseBool p.content = none →
        processParts j (p :: rest) = .error (.httpError (parseBoolErrMsg p.content) 400)) := by
  refine ⟨fun e => rfl, ?_, ?_⟩
  · intro parts err j hj
    rw [handleRender, parsePhase, hj]
  · intro j p rest hfn hpb
    obtain ⟨fn, fl, c⟩ := p
    simp only at hfn
    subst hfn
    simp only at hpb
    rw [processParts]
    simp [hpb]

/-- C3 witness: the three statuses at concrete requests. -/
theorem C3_amended_input_error_statuses_witness :
    handleRender parseAll lookupEngine ctOctet false (.jsonBody (.error "invalid character"))
      = .jsonError 400 "invalid character"
    ∧ handleRender parseAll lookupEngine ctOctet false (.multipartBody [] (some "mperr"))
      = .httpError "mperr" 500
    ∧ processParts {} [⟨"forcedl", "", "notabool"⟩]
      = .error (.httpError (parseBoolErrMsg "notabool") 400) :=
  ⟨(C3_amended_input_error_statuses parseAll lookupEngine ctOctet false).1 "invalid character",
   (C3_amended_input_error_statuses parseAll lookupEngine ctOctet false).2.1 [] "mperr" {} rfl,
   (C3_amended_input_error_statuses parseAll lookupEngine ctOctet false).2.2 {}
     ⟨"forcedl", "", "notabool"⟩ [] rfl (by decide)⟩

/-- C4: for every plaintext, every key of a supported AES length and every
associated-data string, decrypting an encryption returns the plaintext;
the ciphertext output carries the freshly drawn nonce appended after the
sealed data (its last `NonceSize` bytes are the nonce); and `decrypt`
fails with the unexpected-end-of-input error on any input shorter than
the nonce size. -/
theorem C4_encrypt_decrypt_roundtrip (mkGCM : List Nat → GCMCipher)
    (key ptxt aad iv : List Nat)
    (hkey : aesKeySizeOK key = true) (hiv : iv.length = gcmNonceSize) :
    (∀ c, encrypt mkGCM key ptxt aad iv = .ok c →
      decrypt mkGCM key c aad = .ok ptxt
      ∧ c.drop (c.length - gcmNonceSize) = iv
      ∧ c.take (c.length - gcmNonceSize) = (mkGCM key).sealGCM iv ptxt aad)
    ∧ (∀ input : List Nat, input.length < gcmNonceSize →
        decrypt mkGCM key input aad = .error .unexpectedEOF) := by
  constructor
  · intro c hc
    rw [encrypt, if_pos hkey] at hc
    have hceq : (mkGCM key).sealGCM iv ptxt aad ++ iv = c := by injection hc
    subst hceq
    have hsub : ((mkGCM key).sealGCM iv ptxt aad ++ iv).length - gcmNonceSize
        = ((mkGCM key).sealGCM iv ptxt aad).length := by
      simp only [List.length_append, hiv]
      omega
    have hdrop : ((mkGCM key).sealGCM iv ptxt aad ++ iv).drop
        (((mkGCM key).sealGCM iv ptxt aad ++ iv).length - gcmNonceSize) = iv := by
      rw [hsub, List.drop_left]
    have htake : ((mkGCM key).sealGCM iv ptxt aad ++ iv).take
        (((mkGCM key).sealGCM iv ptxt aad ++ iv).length - gcmNonceSize)
        = (mkGCM key).sealGCM iv ptxt aad := by
      rw [hsub, List.take_left]
    refine ⟨?_, hdrop, htake⟩
    rw [decrypt, if_pos hkey]
    dsimp only
    rw [if_neg (by simp only [List.length_append, hiv]; omega)]
    rw [hdrop, htake, (mkGCM key).seal_open]
  · intro input hlt
    rw [decrypt, if_pos hkey]
    dsimp only
    rw [if_pos hlt]

/-- C4 witness: the round trip and the short-input failure at a concrete
AEAD instance, key, plaintext and nonce. -/
theorem C4_encrypt_decrypt_roundtrip_witness :
    decrypt mkTriv trivKey ([1, 2, 3] ++ List.replicate 12 0) [] = .ok [1, 2, 3]
    ∧ decrypt mkTriv trivKey [0] [] = .error .unexpectedEOF := by
  have h := C4_encrypt_decrypt_roundtrip mkTriv trivKey [1, 2, 3] [] (List.replicate 12 0)
    (by decide) (by decide)
  exact ⟨(h.1 _ rfl).1, h.2 [0] (by decide)⟩

/-- C6: a usage record is enqueued by `trackUsage` exactly when the
process-wide tracking flag is true or the call passes alwaysTrack = true:
with tracking stopped a non-alwaysTrack invocation leaves the tracker
state unchanged (zero records enqueued), and with tracking started every
invocation appends exactly one record and increments the pending count
before returning. -/
theorem C6_trackUsage_enqueue_iff (now : Nat) (fnName : String) (always : Bool)
    (output : String) (err : Option String) (args : List String) (st : TrackerState) :
    ((st.debugAllFunctions || always) = true →
      trackUsage now fnName always output err args st
        = { st with
            pending := st.pending + 1
            queue := st.queue ++ [⟨now, fnName, args, output, err⟩] })
    ∧ ((st.debugAllFunctions || always) = false →
      trackUsage now fnName always output err args st = st)
    ∧ trackUsage now fnName false output err args (StopTracking st) = StopTracking st
    ∧ (trackUsage now fnName always output err args (StartTracking st)).queue
        = st.queue ++ [⟨now, fnName, args, output, err⟩]
    ∧ (trackUsage now fnName always output err args (StartTracking st)).pending
        = st.pending + 1 := by
  refine ⟨fun h => ?_, fun h => ?_, ?_, ?_, ?_⟩
  · rw [trackUsage, if_pos h]
  · rw [trackUsage, if_neg (by simp [h])]
  · rw [trackUsage, if_neg (by simp [StopTracking])]
  · rw [trackUsage, if_pos (by simp [StartTracking])]
    simp [StartTracking]
  · rw [trackUsage, if_pos (by simp [StartTracking])]
    simp [StartTracking]

/-- C6 witness: with the flag cleared a non-alwaysTrack call changes
nothing; an alwaysTrack call on the same state enqueues one record. -/
theorem C6_trackUsage_enqueue_iff_witness :
    trackUsage 0 "tojson" false "out" none [] (StopTracking ⟨false, 0, []⟩)
      = StopTracking ⟨false, 0, []⟩
    ∧ trackUsage 0 "cmd" true "out" none ["ls"] (⟨false, 0, []⟩ : TrackerState)
      = { (⟨false, 0, []⟩ : TrackerState) with
          pending := 0 + 1
          queue := [] ++ [⟨0, "cmd", ["ls"], "out", none⟩] } :=
  ⟨(C6_trackUsage_enqueue_iff 0 "tojson" false "out" none [] ⟨false, 0, []⟩).2.2.1,
   (C6_trackUsage_enqueue_iff 0 "cmd" true "out" none ["ls"] ⟨false, 0, []⟩).1 rfl⟩

/-- C7: a successful render is answered with the inline HTML page exactly
when the rendered length is under 1 MiB, force-download was not requested
and the request was multipart; in every other case the response is an
attachment naming the requested outfile (default "rendered.out") with a
Content-Length equal to the rendered byte count. -/
theorem C7_respond_inline_iff (detectCT : List Char → String) (multipart : Bool)
    (j : Jreq) (rendered : List Char) :
    (respond detectCT multipart j rendered = .inlineHTML rendered
      ↔ (rendered.length < (1 <<< 20) ∧ j.forceDL = false ∧ multipart = true))
    ∧ (¬ (rendered.length < (1 <<< 20) ∧ j.forceDL = false ∧ multipart = true) →
        respond detectCT multipart j rendered
          = .attachment (if j.outfile = "" then "rendered.out" else j.outfile)
              (detectCT (sniffBuf rendered)) rendered.length rendered) := by
  by_cases h : (decide (rendered.length < (1 <<< 20)) && !j.forceDL && multipart) = true
  · have hprop : rendered.length < (1 <<< 20) ∧ j.forceDL = false ∧ multipart = true := by
      simp only [Bool.and_eq_true, decide_eq_true_eq, Bool.not_eq_true'] at h
      exact ⟨h.1.1, h.1.2, h.2⟩
    constructor
    · rw [respond]
      rw [if_pos h]
      exact ⟨fun _ => hprop, fun _ => rfl⟩
    · intro hc
      exact absurd hprop hc
  · have hprop : ¬ (rendered.length < (1 <<< 20) ∧ j.forceDL = false ∧ multipart = true) := by
      rintro ⟨a, b, c⟩
      have hd : decide (rendered.length < (1 <<< 20)) = true := decide_eq_true a
      exact h (by rw [hd, b, c]; rfl)
    constructor
    · rw [respond]
      rw [if_neg h]
      constructor
      · intro habs
        exact Resp.noConfusion habs
      · intro habs
        exact absurd habs hprop
    · intro _
      rw [respond]
      rw [if_neg h]

/-- C7 witness: the same small output is inline for a plain multipart
request and an attachment named "rendered.out" with Content-Length 1 when
force-download is requested. -/
theorem C7_respond_inline_iff_witness :
    respond ctOctet true { forceDL := true } ['A']
      = .attachment "rendered.out" (ctOctet (sniffBuf ['A'])) 1 ['A']
    ∧ respond ctOctet true {} ['A'] = .inlineHTML ['A'] := by
  constructor
  · have := (C7_respond_inline_iff ctOctet true { forceDL := true } ['A']).2 (by decide)
    simpa using this
  · exact (C7_respond_inline_iff ctOctet true {} ['A']).1.mpr ⟨by decide, rfl, rfl⟩

/-! ## Hex lemmas -/

/-- Hex digit encode/decode round trip for values below 16. -/
theorem fromHexDigit_hexDigitChar :
    ∀ d : Fin 16, fromHexDigit (hexDigitChar d.val) = some d.val := by decide

/-- Decoding what `hexencBytes` encodes recovers the bytes. -/
theorem hexDecodeCore_hexencBytes :
    ∀ bs : List Nat, (∀ b ∈ bs, b < 256) →
      hexDecodeCore fromHexDigit (hexencBytes bs) = .ok bs := by
  intro bs
  induction bs with
  | nil => intro _; rfl
  | cons b rest ih =>
    intro hb
    have hblt : b < 256 := hb b (List.mem_cons_self _ _)
    have h1 := fromHexDigit_hexDigitChar ⟨b / 16, by omega⟩
    have h2 := fromHexDigit_hexDigitChar ⟨b % 16, by omega⟩
    rw [hexencBytes, hexDecodeCore, h1, h2]
    dsimp only
    rw [ih (fun x hx => hb x (List.mem_cons_of_mem _ hx))]
    dsimp only
    congr 2
    omega

/-- Reading the digits through the bytes of the hex text (each byte being
the character's code point) decodes the same as reading the characters. -/
theorem hexDecodeCore_map_toNat :
    ∀ cs : List Char,
      hexDecodeCore (fun b => fromHexDigit (Char.ofNat b)) (cs.map Char.toNat)
        = hexDecodeCore fromHexDigit cs
  | [] => rfl
  | [_] => rfl
  | c1 :: c2 :: rest => by
    rw [List.map_cons, List.map_cons, hexDecodeCore, hexDecodeCore]
    rw [Char.ofNat_toNat, Char.ofNat_toNat]
    cases fromHexDigit c1 <;> cases fromHexDigit c2 <;> dsimp only
    rw [hexDecodeCore_map_toNat rest]

/-- C9: a non-erroring `hexdec` on a string returns the empty byte
sequence (the decoded count `n` is never written in the string branch
before the result is sliced to it), so hexdec(hexenc(b)) is empty for
every byte sequence b, while the same hex text given as a byte slice
decodes to b — the two input forms of the same data disagree, witnessed
concretely at the hex text "0a". -/
theorem C9_hexdec_string_branch_empty :
    (∀ s r, hexdec (.str s) = .ok r → r = [])
    ∧ (∀ bs : List Nat, (∀ b ∈ bs, b < 256) →
        hexdec (.str (hexenc (.bytes bs))) = .ok [])
    ∧ (∀ bs : List Nat, (∀ b ∈ bs, b < 256) →
        hexdec (.bytes ((hexenc (.bytes bs)).data.map Char.toNat)) = .ok bs)
    ∧ (hexdec (.str "0a") = .ok [] ∧ hexdec (.bytes ['0'.toNat, 'a'.toNat]) = .ok [10]
        ∧ ([] : List Nat) ≠ [10]) := by
  refine ⟨?_, ?_, ?_, rfl, rfl, by decide⟩
  · intro s r h
    rw [hexdec] at h
    cases hd : hexDecodeString s with
    | error e => rw [hd] at h; cases h
    | ok b =>
      rw [hd] at h
      dsimp only at h
      injection h with h
      simp [← h]
  · intro bs hb
    rw [hexdec]
    have hds : hexDecodeString (hexenc (.bytes bs)) = .ok bs := by
      rw [hexDecodeString]
      rw [show (hexenc (.bytes bs)).data = hexencBytes bs from rfl]
      exact hexDecodeCore_hexencBytes bs hb
    rw [hds]
    rfl
  · intro bs hb
    rw [hexdec]
    have hdb : hexDecodeBytes ((hexenc (.bytes bs)).data.map Char.toNat) = .ok bs := by
      rw [hexDecodeBytes]
      rw [show (hexenc (.bytes bs)).data = hexencBytes bs from rfl]
      rw [hexDecodeCore_map_toNat]
      exact hexDecodeCore_hexencBytes bs hb
    rw [hdb]

/-- C9 witness: the encode/decode behaviour at the concrete bytes
[0, 255]. -/
theorem C9_hexdec_string_branch_empty_witness :
    hexdec (.str (hexenc (.bytes [0, 255]))) = .ok []
    ∧ hexdec (.bytes ((hexenc (.bytes [0, 255])).data.map Char.toNat)) = .ok [0, 255] :=
  ⟨C9_hexdec_string_branch_empty.2.1 [0, 255] (by decide),
   C9_hexdec_string_branch_empty.2.2.1 [0, 255] (by decide)⟩

/-! ## The `is` dispatch -/

/-- A trimmed predicate that is none of the recognised names reaches the
switch's default case: literal comparison with the whole predicate. -/
theorem isPipe_not_recognized (ext : StrPredFns) (s what x : String)
    (hx : x ∉ recognizedPred) : isPipe ext s x what = (s == what) := by
  have h6 : ∀ a b : String, a ∈ recognizedPred → b ∈ recognizedPred → ¬(x = a ∨ x = b) := by
    rintro a b ha hb (rfl | rfl)
    · exact hx ha
    · exact hx hb
  rw [isPipe]
  rw [if_neg (h6 "u" "upper" (by decide) (by decide))]
  rw [if_neg (h6 "l" "lower" (by decide) (by decide))]
  rw [if_neg (h6 "i" "int" (by decide) (by decide))]
  rw [if_neg (h6 "f" "float" (by decide) (by decide))]
  rw [if_neg (h6 "f32" "float32" (by decide) (by decide))]
  rw [if_neg (h6 "b" "bool" (by decide) (by decide))]

/-- C10: for every string s and every predicate string that begins with
"|" but whose remainder x is not one of the recognised predicate names,
`is` returns the literal equality of s with the entire predicate string,
its leading "|" included. -/
theorem C10_is_unknown_pipe_is_literal_equality (ext : StrPredFns) (s what x : String)
    (hpipe : what.data = '|' :: x.data) (hx : x ∉ recognizedPred) :
    is ext s what = (s == what) := by
  have h1 : strHasPrefixPipe what.data = true := by rw [hpipe]; rfl
  have h2 : strTrimPipe what.data = x.data := by
    rw [hpipe]
    rfl
  rw [is, if_pos h1, h2]
  have hmk : String.mk x.data = x := by
    obtain ⟨xd⟩ := x
    rfl
  rw [hmk]
  exact isPipe_not_recognized ext s what x hx

/-- C10 witness: with the unrecognised pipe predicate "|xyz", `is` is
literal comparison against "|xyz" itself — false for "abc", true for the
string "|xyz". -/
theorem C10_is_unknown_pipe_is_literal_equality_witness :
    is extTriv "abc" "|xyz" = ("abc" == "|xyz")
    ∧ is extTriv "|xyz" "|xyz" = true := by
  have h1 := C10_is_unknown_pipe_is_literal_equality extTriv "abc" "|xyz" "xyz" rfl (by decide)
  have h2 := C10_is_unknown_pipe_is_literal_equality extTriv "|xyz" "|xyz" "xyz" rfl (by decide)
  refine ⟨h1, ?_⟩
  rw [h2]
  decide

end Xprint
